import Mathlib

/-!
Verification development for the hal9000-actions response-parsing and
attempt-retry core (`src/scripts/apply_changes.py`, `run_hal9000.py`,
`execute_plan.py`).

The Python code is shallowly embedded:
* a parsed change dict becomes `Change` (optional keys become `Option`,
  mirroring `dict.get` with defaults);
* the regex scanning of `parse_model_response` is abstracted into a
  `RawResponse` record holding the match lists the four regexes produce,
  and the control flow of the function over those matches is translated
  faithfully;
* the filesystem becomes an association list from resolved path strings
  to file contents; the `/` operator of `pathlib` becomes `joinPath` (an
  absolute right operand replaces the root, as in `PurePosixPath`);
* `subprocess.run` outcomes become the `ProcResult` inductive;
* the retry loop in `main` (identical in `run_hal9000.py` and
  `execute_plan.py`) becomes `mainLoop`, with counters for generation
  calls, `apply_changes` invocations, test runs and `git checkout`
  resets, and the `previous_attempt` feedback slot.
-/

/-- One entry of a `changes` list: a Python dict with a mandatory
`"path"` key (the code indexes `change["path"]` directly) and optional
`"action"` / `"content"` keys (the code uses `change.get(..., default)`). -/
structure Change where
  path : String
  action : Option String
  content : Option String
deriving DecidableEq, Repr

/-- A JSON object as far as `parse_model_response` inspects it: the
optional `"explanation"` and `"changes"` keys.  `json.loads` output whose
`"changes"` key is absent is modelled by `changes = none`. -/
structure JsonDict where
  explanation : Option String
  changes : Option (List Change)
deriving DecidableEq, Repr

/-- One match of the `file_pattern` / `alt_pattern` regexes in
`parse_model_response`: group 1 is the path text, group 2 the optional
action word, group 3 the raw fenced-block capture (which includes the
newline that precedes the closing fence). -/
structure TaggedMatch where
  path : String
  action : Option String
  rawContent : String
deriving DecidableEq, Repr

/-- A response text as seen through the four regexes of
`parse_model_response`:
* `jsonBlock`: result of `re.search` for the first ```json fence —
  `none` if no fence, `some none` if the body of the fence fails `json.loads`
  (or is not a dict), `some (some d)` if it parses to dict `d`;
* `taggedMatches`: all `file_pattern` matches in order;
* `altMatches`: all `alt_pattern` matches in order;
* `deleteMatches`: group 1 of each `delete_pattern` match, in order;
* `explanationMatch`: group 1 of the `Explanation` heading regex. -/
structure RawResponse where
  jsonBlock : Option (Option JsonDict)
  taggedMatches : List TaggedMatch
  altMatches : List TaggedMatch
  deleteMatches : List String
  explanationMatch : Option String
deriving DecidableEq, Repr

/-- Models the Python `str.lower()` used on action words: lower-case
every character. -/
def strLower (s : String) : String :=
  String.mk (s.data.map Char.toLower)

/-- Models the Python `str.strip()` used on paths and explanations: drop
leading and trailing whitespace. -/
def strTrim (s : String) : String :=
  String.mk ((s.data.dropWhile Char.isWhitespace).reverse.dropWhile Char.isWhitespace).reverse

/-- Models `if content.endswith("\n"): content = content[:-1]`
(apply_changes.py lines 80–81 and 103–104): drop the last character when
it is a newline. -/
def stripTrailingNewline (s : String) : String :=
  if s.data.getLast? = some '\n' then String.mk s.data.dropLast else s

/-- Builds the change dict appended by the `file_pattern` loop
(`stripPath = false`, path kept verbatim) or the `alt_pattern` loop
(`stripPath = true`, path passed through `.strip()`).  A missing action
group defaults to `"modify"` and is lower-cased. -/
def mkChange (stripPath : Bool) (m : TaggedMatch) : Change :=
  { path := if stripPath then strTrim m.path else m.path
    action := some (strLower (m.action.getD "modify"))
    content := some (stripTrailingNewline m.rawContent) }

/-- The `delete_pattern` loop (apply_changes.py lines 119–128): for each
matched path (after `.strip()`), append a delete change only when the
path is not already among the paths of the collected changes. -/
def mergeDeletes (cs : List Change) : List String → List Change
  | [] => cs
  | d :: rest =>
    let p := strTrim d
    if p ∈ cs.map Change.path then mergeDeletes cs rest
    else mergeDeletes (cs ++ [{ path := p, action := some "delete", content := some "" }]) rest

/-- The content-format changes collected before the delete merge: the
`file_pattern` matches, or — only when those produced no changes — the
`alt_pattern` matches (apply_changes.py lines 74–110). -/
def mdBase (r : RawResponse) : List Change :=
  let tagged := r.taggedMatches.map (mkChange false)
  if tagged.isEmpty then r.altMatches.map (mkChange true) else tagged

/-- The markdown path of `parse_model_response`: explanation from the
`Explanation` heading (stripped, `""` when absent), changes from the
content formats merged with the delete-only sections. -/
def mdResult (r : RawResponse) : JsonDict :=
  { explanation := some ((match r.explanationMatch with
      | some s => strTrim s
      | none => ""))
    changes := some (mergeDeletes (mdBase r) r.deleteMatches) }

/-- `parse_model_response` (apply_changes.py lines 12–130): if the first
```json fence parses to a dict containing a `"changes"` key, that dict is
returned verbatim; otherwise the markdown formats are tried. -/
def parse_model_response (r : RawResponse) : JsonDict :=
  match r.jsonBlock with
  | some (some d) => if d.changes.isSome then d else mdResult r
  | _ => mdResult r

/-- The workspace: an association list from resolved path strings to file
contents.  Earliest binding wins on lookup; `insert` removes older
bindings for the key. -/
def FS := List (String × String)
deriving DecidableEq

/-- Content of the file at `k`, `none` when absent (models
`Path.exists` / `read_text`). -/
def FS.lookup (fs : FS) (k : String) : Option String :=
  List.lookup k fs

/-- Overwriting write (models `Path.write_text`). -/
def FS.insert (fs : FS) (k v : String) : FS :=
  (k, v) :: fs.filter (fun p => ¬ p.1 = k)

/-- File removal (models `Path.unlink`). -/
def FS.erase (fs : FS) (k : String) : FS :=
  fs.filter (fun p => ¬ p.1 = k)

/-- Models the POSIX absolute-path test (path begins with a slash). -/
def isAbsolute (p : String) : Bool :=
  p.data.head? == some '/'

/-- Models `Path(repo_path) / path` for POSIX paths: an absolute second
operand replaces the root entirely; `..` segments are kept, not
resolved. -/
def joinPath (root p : String) : String :=
  if isAbsolute p then p else root ++ "/" ++ p

/-- One line of the summary built by `apply_changes`, with the path it
reports. -/
inductive SummaryLine where
  | deleted (path : String)
  | skipDelete (path : String)
  | modified (path : String)
  | created (path : String)
  | unknown (action path : String)
deriving DecidableEq, Repr

/-- `apply_changes` (apply_changes.py lines 133–174): resolve each
change path against the repo root, delete / write `content + "\n"` /
report an unknown action, and collect the summary lines in order.
Returns the mutated filesystem and the summary. -/
def apply_changes (cs : List Change) (root : String) (fs : FS) : FS × List SummaryLine :=
  match cs with
  | [] => (fs, [])
  | c :: rest =>
    let path := c.path
    let action := c.action.getD "modify"
    let content := c.content.getD ""
    let fp := joinPath root path
    if action = "delete" then
      if (fs.lookup fp).isSome then
        let r := apply_changes rest root (fs.erase fp)
        (r.1, .deleted path :: r.2)
      else
        let r := apply_changes rest root fs
        (r.1, .skipDelete path :: r.2)
    else if action = "create" ∨ action = "modify" then
      let existed := (fs.lookup fp).isSome
      let r := apply_changes rest root (fs.insert fp (content ++ "\n"))
      (r.1, (if existed then .modified path else .created path) :: r.2)
    else
      let r := apply_changes rest root fs
      (r.1, .unknown action path :: r.2)

/-- One value of the `diffs` dict built by `generate_diff`. -/
structure DiffEntry where
  action : String
  old : String
  new : String
deriving DecidableEq, Repr

/-- Python-dict assignment `diffs[path] = v`: replace the value in place
when the key exists, otherwise append. -/
def dictInsert (l : List (String × DiffEntry)) (k : String) (v : DiffEntry) :
    List (String × DiffEntry) :=
  if (List.lookup k l).isSome then
    l.map (fun p => if p.1 = k then (k, v) else p)
  else l ++ [(k, v)]

/-- Helper for `generate_diff`, carrying the accumulated `diffs` dict. -/
def generate_diffAux (root : String) (fs : FS) (acc : List (String × DiffEntry)) :
    List Change → List (String × DiffEntry)
  | [] => acc
  | c :: rest =>
    let path := c.path
    let action := c.action.getD "modify"
    let content := c.content.getD ""
    let fp := joinPath root path
    let acc :=
      if action = "delete" then
        match fs.lookup fp with
        | some oldContent => dictInsert acc path ⟨"delete", oldContent, ""⟩
        | none => acc
      else if action = "create" then
        dictInsert acc path ⟨"create", "", content⟩
      else if action = "modify" then
        dictInsert acc path ⟨"modify", (fs.lookup fp).getD "", content⟩
      else acc
    generate_diffAux root fs acc rest

/-- `generate_diff` (apply_changes.py lines 177–224): read before/after
contents for each change against the pre-mutation filesystem.  A delete
of a missing file contributes no entry; `create` records `old = ""`
without consulting the filesystem; any other action token contributes no
entry. -/
def generate_diff (cs : List Change) (root : String) (fs : FS) :
    List (String × DiffEntry) :=
  generate_diffAux root fs [] cs

/-- Outcome of the `subprocess.run` call inside `run_tests`: normal
completion with a return code and the two captured streams, a
`subprocess.TimeoutExpired` exception (which carries the output captured
before expiry), or any other exception with its message. -/
inductive ProcResult where
  | completed (returncode : Int) (stdoutS stderrS : String)
  | timedOut (captured : String)
  | raised (msg : String)
deriving DecidableEq, Repr

/-- `run_tests` (run_hal9000.py lines 130–151, identical in
execute_plan.py lines 137–158): `(returncode == 0, (stdout + "\n" +
stderr).strip())` on completion; on timeout the fixed message — the
captured output held by the exception is not consulted; on any other exception an
error message.  All three paths return a pair, none re-raises. -/
def run_tests (r : ProcResult) : Bool × String :=
  match r with
  | .completed rc o e => (rc == 0, strTrim (o ++ "\n" ++ e))
  | .timedOut _ => (false, "Test command timed out after 5 minutes")
  | .raised m => (false, "Error running tests: " ++ m)

/-- What the externals do at a given attempt of the retry loop in `main`:
the parse yields no changes, `apply_changes` raises a filesystem error,
or the changes are applied and the test run passes or fails with the
given combined output. -/
inductive AttemptSpec where
  | noChanges
  | applyError
  | changes (testPass : Bool) (testOutput : String)
deriving DecidableEq, Repr

/-- Book-keeping for one run of the retry loop: how many times the LLM
was called, `apply_changes` was entered, the test command was run and
`git checkout .` was invoked, plus the `previous_attempt` feedback slot
(its `test_output` field). -/
structure LoopState where
  genCalls : Nat
  applies : Nat
  testRuns : Nat
  resets : Nat
  feedback : Option String
deriving DecidableEq, Repr

/-- Terminal behaviour of one run of `main`: `sys.exit(0)` after tests
passed on the recorded attempt, `sys.exit(1)` after the budget was
exhausted, or the process dying on an exception that `main` does not
catch (as happens when `apply_changes` raises). -/
inductive RunResult where
  | succeeded (attemptIndex : Nat)
  | exhausted
  | crashed
deriving DecidableEq, Repr

/-- The body of `for attempt in range(1, max_retries + 1)`
(run_hal9000.py lines 211–291, identical in execute_plan.py lines
228–308), recursing on the number of remaining iterations; `i` is the
current attempt index.  Empty changes record the literal feedback string
and `continue`; an `apply_changes` exception propagates (crash); a failed
test records the output as feedback and resets the workspace only when
`attempt < max_retries`, i.e. when further iterations remain. -/
def mainLoopAux (env : Nat → AttemptSpec) : Nat → Nat → LoopState → RunResult × LoopState
  | 0, _, st => (.exhausted, st)
  | rem + 1, i, st =>
    let st := { st with genCalls := st.genCalls + 1 }
    match env i with
    | .noChanges =>
      mainLoopAux env rem (i + 1)
        { st with feedback := some "Model did not provide any file changes" }
    | .applyError => (.crashed, { st with applies := st.applies + 1 })
    | .changes pass out =>
      let st := { st with applies := st.applies + 1, testRuns := st.testRuns + 1 }
      if pass then (.succeeded i, st)
      else
        let st := { st with feedback := some out }
        mainLoopAux env rem (i + 1)
          (if 0 < rem then { st with resets := st.resets + 1 } else st)

/-- The whole retry loop of `main` with budget `maxRetries`, starting
from attempt 1 with fresh counters and `previous_attempt = None`. -/
def mainLoop (env : Nat → AttemptSpec) (maxRetries : Nat) : RunResult × LoopState :=
  mainLoopAux env maxRetries 1 ⟨0, 0, 0, 0, none⟩

/-- Whether a run behaviour is one of the two terminal outcomes of the
loop design — reaching `sys.exit` after success or after exhausting the
budget — as opposed to the process dying on an uncaught exception. -/
def RunResult.isTerminal : RunResult → Bool
  | .succeeded _ => true
  | .exhausted => true
  | .crashed => false

/-- Helper for `occursIn`: the needle is a prefix of the haystack. -/
def startsWithL (needle hay : List Char) : Bool :=
  match needle, hay with
  | [], _ => true
  | _ :: _, [] => false
  | a :: as, b :: bs => a == b && startsWithL as bs

/-- Whether `needle` occurs contiguously anywhere inside the haystack;
used to express that a reported output carries a given captured text. -/
def occursIn (needle : List Char) : List Char → Bool
  | [] => startsWithL needle []
  | c :: rest => startsWithL needle (c :: rest) || occursIn needle rest

/-- Writing a file and reading it back at the same resolved path returns
the written content. -/
theorem FS.lookup_insert (fs : FS) (k v : String) : (fs.insert k v).lookup k = some v := by
  simp [FS.insert, FS.lookup, List.lookup]

/-- Stripping the single trailing newline that follows a block content
`C` inside a fence recovers `C` itself. -/
theorem stripTrailingNewline_append_newline (C : String) :
    stripTrailingNewline (C ++ "\n") = C := by
  have hd : (C ++ ("\n" : String)).data = C.data ++ ['\n'] := by
    rw [String.data_append]
  unfold stripTrailingNewline
  rw [hd]
  simp

/-- Counting edits for a fixed path through the delete-merge phase: the
count over the content-format edits is unchanged, plus one exactly when
the path appears among the (stripped) delete-section paths and is not
already a collected path. -/
theorem mergeDeletes_countP (p : String) :
    ∀ (dels : List String) (cs : List Change),
      (mergeDeletes cs dels).countP (fun c => c.path == p) =
        cs.countP (fun c => c.path == p) +
          (if p ∈ dels.map strTrim ∧ p ∉ cs.map Change.path then 1 else 0) := by
  intro dels
  induction dels with
  | nil => intro cs; simp [mergeDeletes]
  | cons d rest ih =>
    intro cs
    rw [mergeDeletes]
    by_cases hmem : strTrim d ∈ cs.map Change.path
    · rw [if_pos hmem, ih]
      rcases eq_or_ne p (strTrim d) with hpd | hpd
      · subst hpd
        simp [hmem]
      · simp [List.mem_cons, hpd, hpd.symm]
    · rw [if_neg hmem, ih]
      rcases eq_or_ne p (strTrim d) with hpd | hpd
      · subst hpd
        simp [List.countP_append, List.countP_cons, hmem]
      · simp [List.countP_append, List.countP_cons, hpd, List.mem_cons, hpd.symm]

/-- Invariant of the retry loop: the generation-call and reset counters
respect the remaining budget unconditionally, and the run ends
succeeded, exhausted, or — only when some in-range attempt raises from
the mutator — crashed. -/
theorem mainLoopAux_bounds (env : Nat → AttemptSpec) :
    ∀ (rem i : Nat) (g a t rs : Nat) (fb : Option String),
      ((∃ x, (mainLoopAux env rem i ⟨g, a, t, rs, fb⟩).1 = .succeeded x) ∨
        (mainLoopAux env rem i ⟨g, a, t, rs, fb⟩).1 = .exhausted ∨
        ((mainLoopAux env rem i ⟨g, a, t, rs, fb⟩).1 = .crashed ∧
          ∃ m, i ≤ m ∧ m < i + rem ∧ env m = .applyError)) ∧
      (mainLoopAux env rem i ⟨g, a, t, rs, fb⟩).2.genCalls ≤ g + rem ∧
      (mainLoopAux env rem i ⟨g, a, t, rs, fb⟩).2.resets ≤ rs + (rem - 1) := by
  intro rem
  induction rem with
  | zero => intro i g a t rs fb; simp [mainLoopAux]
  | succ n ih =>
    intro i g a t rs fb
    cases hI : env i with
    | noChanges =>
      obtain ⟨h1, h2, h3⟩ :=
        ih (i + 1) (g + 1) a t rs (some "Model did not provide any file changes")
      simp only [mainLoopAux, hI]
      refine ⟨?_, le_trans h2 (by omega), le_trans h3 (by omega)⟩
      rcases h1 with h1 | h1 | ⟨hc, m, hm1, hm2, hm3⟩
      · exact Or.inl h1
      · exact Or.inr (Or.inl h1)
      · exact Or.inr (Or.inr ⟨hc, m, by omega, by omega, hm3⟩)
    | applyError =>
      simp only [mainLoopAux, hI]
      refine ⟨Or.inr (Or.inr ⟨by trivial, i, le_rfl, by omega, hI⟩), ?_, ?_⟩ <;> simp
    | changes pass out =>
      simp only [mainLoopAux, hI]
      by_cases hp : pass
      · subst hp
        simp
      · simp only [hp, if_false, Bool.false_eq_true]
        have step : ∀ rs2 : Nat, rs ≤ rs2 → rs2 ≤ rs + 1 →
            ((∃ x, (mainLoopAux env n (i + 1) ⟨g + 1, a + 1, t + 1, rs2, some out⟩).1 =
                .succeeded x) ∨
              (mainLoopAux env n (i + 1) ⟨g + 1, a + 1, t + 1, rs2, some out⟩).1 =
                .exhausted ∨
              ((mainLoopAux env n (i + 1) ⟨g + 1, a + 1, t + 1, rs2, some out⟩).1 =
                  .crashed ∧
                ∃ m, i ≤ m ∧ m < i + (n + 1) ∧ env m = .applyError)) ∧
            (mainLoopAux env n (i + 1) ⟨g + 1, a + 1, t + 1, rs2, some out⟩).2.genCalls ≤
              g + (n + 1) ∧
            (mainLoopAux env n (i + 1) ⟨g + 1, a + 1, t + 1, rs2, some out⟩).2.resets ≤
              rs2 + (n - 1) := by
          intro rs2 _ _
          obtain ⟨h1, h2, h3⟩ := ih (i + 1) (g + 1) (a + 1) (t + 1) rs2 (some out)
          refine ⟨?_, le_trans h2 (by omega), h3⟩
          rcases h1 with h1 | h1 | ⟨hc, m, hm1, hm2, hm3⟩
          · exact Or.inl h1
          · exact Or.inr (Or.inl h1)
          · exact Or.inr (Or.inr ⟨hc, m, by omega, by omega, hm3⟩)
        by_cases hn : 0 < n
        · simp only [hn, if_true]
          obtain ⟨h1, h2, h3⟩ := step (rs + 1) (by omega) (by omega)
          exact ⟨h1, h2, le_trans h3 (by omega)⟩
        · simp only [hn, if_false]
          obtain ⟨h1, h2, h3⟩ := step rs (by omega) (by omega)
          exact ⟨h1, h2, le_trans h3 (by omega)⟩

/-- If the loop reaches an attempt whose `apply_changes` raises, having
only failed or no-edit attempts before it, the whole run crashes. -/
theorem mainLoopAux_crash (env : Nat → AttemptSpec) (i : Nat) (hE : env i = .applyError) :
    ∀ (rem j : Nat) (st : LoopState), j ≤ i → i < j + rem →
      (∀ m, j ≤ m → m < i → env m = .noChanges ∨ ∃ out, env m = .changes false out) →
      (mainLoopAux env rem j st).1 = .crashed := by
  intro rem
  induction rem with
  | zero => intro j st hj hlt; omega
  | succ n ih =>
    intro j st hj hlt hprev
    by_cases hji : j = i
    · subst hji
      simp [mainLoopAux, hE]
    · have hji' : j < i := lt_of_le_of_ne hj hji
      rcases hprev j le_rfl hji' with h | ⟨out, h⟩
      · simp only [mainLoopAux, h]
        exact ih (j + 1) _ (by omega) (by omega) (fun m hm1 hm2 => hprev m (by omega) hm2)
      · simp only [mainLoopAux, h, Bool.false_eq_true, if_false]
        exact ih (j + 1) _ (by omega) (by omega) (fun m hm1 hm2 => hprev m (by omega) hm2)

/-- C1 counterexample: a run whose attempts raise from the mutator ends
in `crashed` — neither of the two claimed terminal outcomes — so it is
not true that every run terminates in `Succeeded` or `Exhausted`. -/
theorem mainLoop_crash_not_terminal_counterexample :
    mainLoop (fun _ => .applyError) 3 = (.crashed, ⟨1, 1, 0, 0, none⟩) ∧
    (mainLoop (fun _ => .applyError) 3).1.isTerminal = false := by
  refine ⟨?_, ?_⟩ <;> decide

/-- C1 amended: for `maxRetries = k` (positive) the retry loop performs
at most `k` generation calls and at most `k - 1` workspace resets (none
after the final failed attempt) in every run; a run terminates in
success or exhaustion, except that it crashes on an uncaught exception
when — and only when — some attempt in `1..k` raises out of the
workspace mutator (the case settled under C7). -/
theorem mainLoop_termination_bounds (k : Nat) (env : Nat → AttemptSpec)
    (hk : 1 ≤ k) :
    ((∃ x, (mainLoop env k).1 = .succeeded x) ∨ (mainLoop env k).1 = .exhausted ∨
      ((mainLoop env k).1 = .crashed ∧ ∃ m, 1 ≤ m ∧ m ≤ k ∧ env m = .applyError)) ∧
    (mainLoop env k).2.genCalls ≤ k ∧ (mainLoop env k).2.resets ≤ k - 1 := by
  obtain ⟨h1, h2, h3⟩ := mainLoopAux_bounds env k 1 0 0 0 0 none
  refine ⟨?_, by simpa [mainLoop] using h2, by simpa [mainLoop] using h3⟩
  rcases h1 with h1 | h1 | ⟨hc, m, hm1, hm2, hm3⟩
  · exact Or.inl h1
  · exact Or.inr (Or.inl h1)
  · exact Or.inr (Or.inr ⟨hc, m, hm1, by omega, hm3⟩)

/-- C1 amended witness: two attempts that both apply changes and fail
the tests exhaust the budget within two generation calls and one
reset. -/
theorem mainLoop_termination_bounds_witness :
    (1 ≤ 2) ∧
    (((∃ x, (mainLoop (fun _ => .changes false "boom") 2).1 = .succeeded x) ∨
        (mainLoop (fun _ => .changes false "boom") 2).1 = .exhausted ∨
        ((mainLoop (fun _ => .changes false "boom") 2).1 = .crashed ∧
          ∃ m, 1 ≤ m ∧ m ≤ 2 ∧ (fun _ : Nat => AttemptSpec.changes false "boom") m =
            .applyError)) ∧
      (mainLoop (fun _ => .changes false "boom") 2).2.genCalls ≤ 2 ∧
      (mainLoop (fun _ => .changes false "boom") 2).2.resets ≤ 2 - 1) :=
  ⟨by decide, mainLoop_termination_bounds 2 (fun _ => .changes false "boom") (by decide)⟩

/-- C2: when the first fenced JSON block parses to a dict with a
`changes` list and an `explanation` string, `parse_model_response`
returns that dict verbatim — independently of any tagged-section,
loose-section or delete-section matches in the same text, and also when
the `changes` list is empty. -/
theorem parse_json_block_verbatim (r : RawResponse) (d : JsonDict)
    (hb : r.jsonBlock = some (some d)) (cs : List Change) (hc : d.changes = some cs)
    (e : String) (he : d.explanation = some e) :
    parse_model_response r = d := by
  simp [parse_model_response, hb, hc]

/-- C2 witness: a response carrying a valid JSON block with an empty
`changes` list next to a tagged section and a delete section parses to
the JSON dict alone. -/
theorem parse_json_block_verbatim_witness :
    (RawResponse.jsonBlock ⟨some (some ⟨some "done", some []⟩), [⟨"a.txt", none, "x\n"⟩],
        [], ["b.txt"], some "md"⟩ = some (some ⟨some "done", some []⟩)) ∧
    parse_model_response ⟨some (some ⟨some "done", some []⟩), [⟨"a.txt", none, "x\n"⟩],
        [], ["b.txt"], some "md"⟩ = ⟨some "done", some []⟩ :=
  ⟨rfl, parse_json_block_verbatim _ _ rfl [] rfl "done" rfl⟩

/-- C3: for content `C` with no trailing newline, parsing a tagged
section whose fenced block captures `C` followed by the fence newline
yields a `FileEdit` with content exactly `C`; applying it writes
`C ++ "\n"` at the resolved path; stripping one trailing newline from
the written file reproduces `C`. -/
theorem roundTrip_content (C p root : String) (fs : FS)
    (h : C.data.getLast? ≠ some '\n') :
    ((parse_model_response ⟨none, [⟨p, some "create", C ++ "\n"⟩], [], [], none⟩).changes.getD [])
      = [⟨p, some "create", some C⟩] ∧
    (((apply_changes [⟨p, some "create", some C⟩] root fs).1).lookup (joinPath root p))
      = some (C ++ "\n") ∧
    stripTrailingNewline (C ++ "\n") = C := by
  refine ⟨?_, ?_, stripTrailingNewline_append_newline C⟩
  · simp [parse_model_response, mdResult, mdBase, mkChange, mergeDeletes,
      stripTrailingNewline_append_newline]
    decide
  · simp [apply_changes, FS.lookup_insert]

/-- C3 witness: the round trip evaluated at content `"hello"`. -/
theorem roundTrip_content_witness :
    ("hello".data.getLast? ≠ some '\n') ∧
    (((parse_model_response ⟨none, [⟨"a.txt", some "create", "hello" ++ "\n"⟩], [], [],
          none⟩).changes.getD [])
      = [⟨"a.txt", some "create", some "hello"⟩] ∧
    (((apply_changes [⟨"a.txt", some "create", some "hello"⟩] "/r" []).1).lookup
        (joinPath "/r" "a.txt"))
      = some ("hello" ++ "\n") ∧
    stripTrailingNewline ("hello" ++ "\n") = "hello") :=
  ⟨by decide, roundTrip_content "hello" "a.txt" "/r" [] (by decide)⟩

/-- C4 counterexample: two tagged sections for the same path both survive
parsing — the parse result holds two edits for `"a.txt"`, so it is not
true that every parse result has at most one edit per path. -/
theorem parse_duplicate_path_counterexample :
    (parse_model_response ⟨none, [⟨"a.txt", none, "x\n"⟩, ⟨"a.txt", none, "y\n"⟩],
        [], [], none⟩).changes =
      some [⟨"a.txt", some "modify", some "x"⟩, ⟨"a.txt", some "modify", some "y"⟩] ∧
    ((parse_model_response ⟨none, [⟨"a.txt", none, "x\n"⟩, ⟨"a.txt", none, "y\n"⟩],
        [], [], none⟩).changes.getD []).countP (fun c => c.path == "a.txt") = 2 := by
  refine ⟨?_, ?_⟩ <;> decide

/-- C4 amended: deduplication happens only in the delete-only phase — a
path gains at most one delete-section edit, and only when no
content-format edit already uses that path; content-format edits for a
repeated path are all kept. -/
theorem parse_delete_dedup_only (r : RawResponse) (hj : r.jsonBlock = none) (p : String) :
    ((parse_model_response r).changes.getD []).countP (fun c => c.path == p) =
      (mdBase r).countP (fun c => c.path == p) +
        (if p ∈ r.deleteMatches.map strTrim ∧ p ∉ (mdBase r).map Change.path
         then 1 else 0) := by
  have : parse_model_response r = mdResult r := by
    simp [parse_model_response, hj]
  rw [this]
  simpa [mdResult] using mergeDeletes_countP p r.deleteMatches (mdBase r)

/-- C4 amended witness: a delete section repeated twice for a fresh path
adds exactly one delete edit. -/
theorem parse_delete_dedup_only_witness :
    (RawResponse.jsonBlock ⟨none, [⟨"a.py", none, "x\n"⟩], [], ["b.txt", "b.txt"], none⟩ = none) ∧
    ((parse_model_response ⟨none, [⟨"a.py", none, "x\n"⟩], [], ["b.txt", "b.txt"],
        none⟩).changes.getD []).countP (fun c => c.path == "b.txt") =
      (mdBase ⟨none, [⟨"a.py", none, "x\n"⟩], [], ["b.txt", "b.txt"], none⟩).countP
          (fun c => c.path == "b.txt") +
        (if "b.txt" ∈ (["b.txt", "b.txt"] : List String).map strTrim ∧
            "b.txt" ∉ (mdBase ⟨none, [⟨"a.py", none, "x\n"⟩], [], ["b.txt", "b.txt"],
              none⟩).map Change.path
         then 1 else 0) :=
  ⟨rfl, parse_delete_dedup_only _ rfl "b.txt"⟩

/-- C5 counterexample: an absolute edit path is neither rejected nor
sanitized — `apply_changes` writes `/etc/passwd` verbatim, a resolved
path that does not lie under the workspace root `/repo`. -/
theorem apply_absolute_path_counterexample :
    (apply_changes [⟨"/etc/passwd", some "create", some "pwned"⟩] "/repo" []).1 =
      [("/etc/passwd", "pwned" ++ "\n")] ∧
    (apply_changes [⟨"/etc/passwd", some "create", some "pwned"⟩] "/repo" []).2 =
      [.created "/etc/passwd"] ∧
    isAbsolute "/etc/passwd" = true ∧ joinPath "/repo" "/etc/passwd" = "/etc/passwd" := by
  refine ⟨?_, ?_, ?_, ?_⟩ <;> decide

/-- C5 amended: edit paths are taken as-is — neither the parser nor the
mutator validates them; joining resolves an absolute path to itself, so
`apply_changes` writes at that absolute location outside the workspace
root (and `..` segments are likewise passed through unresolved). -/
theorem apply_path_unsanitized (p root content : String) (fs : FS)
    (h : isAbsolute p = true) :
    joinPath root p = p ∧
    ((apply_changes [⟨p, some "modify", some content⟩] root fs).1).lookup p =
      some (content ++ "\n") := by
  have hj : joinPath root p = p := by simp [joinPath, h]
  refine ⟨hj, ?_⟩
  simp [apply_changes, hj, FS.lookup_insert]

/-- C5 amended witness: modifying `/outside.txt` from root `/repo` writes
at `/outside.txt` itself. -/
theorem apply_path_unsanitized_witness :
    isAbsolute "/outside.txt" = true ∧
    (joinPath "/repo" "/outside.txt" = "/outside.txt" ∧
      ((apply_changes [⟨"/outside.txt", some "modify", some "c"⟩] "/repo" []).1).lookup
          "/outside.txt" =
        some ("c" ++ "\n")) :=
  ⟨by decide, apply_path_unsanitized "/outside.txt" "/repo" "c" [] (by decide)⟩

/-- C6 counterexample: on a timeout `run_tests` reports the fixed message
`"Test command timed out after 5 minutes"`, in which the captured
partial output does not occur — the captured output is discarded, not
reported; and two different nonzero exit codes yield identical results,
so the exit code itself is not recorded. -/
theorem run_tests_timeout_discards_output :
    run_tests (.timedOut "FAILED tests/test_foo.py - assert 1 == 2") =
      (false, "Test command timed out after 5 minutes") ∧
    occursIn "FAILED tests/test_foo.py - assert 1 == 2".data
      (run_tests (.timedOut "FAILED tests/test_foo.py - assert 1 == 2")).2.data = false ∧
    run_tests (.completed 2 "out" "err") = run_tests (.completed 3 "out" "err") ∧
    (2 : Int) ≠ 3 := by
  refine ⟨?_, ?_, ?_, ?_⟩ <;> decide

/-- C6 amended: the validator classifies a run as passed exactly when the
subprocess completed with exit code 0; a nonzero exit code, a timeout,
or any other subprocess exception all classify as failed through the
same normal return path (no exception propagates, but the numeric exit
code is not separately recorded, and a timeout reports a fixed message
in place of the captured output). -/
theorem run_tests_classification (r : ProcResult) :
    (run_tests r).1 = true ↔ ∃ o e, r = .completed 0 o e := by
  cases r with
  | completed rc o e => simp [run_tests]
  | timedOut c => simp [run_tests]
  | raised m => simp [run_tests]

/-- C7 counterexample: with `maxRetries = 2`, a filesystem error raised
by `apply_changes` on the non-final attempt 1 ends the run as a crash
after a single generation call and zero resets — it is not consumed as a
retryable attempt failure. -/
theorem apply_error_crashes_counterexample :
    mainLoop (fun _ => .applyError) 2 = (.crashed, ⟨1, 1, 0, 0, none⟩) ∧
    RunResult.crashed ≠ RunResult.exhausted ∧
    (1 : Nat) < 2 := by
  refine ⟨?_, ?_, ?_⟩ <;> decide

/-- C7 amended: a filesystem error raised by the workspace mutator
propagates out of the orchestrator uncaught and aborts the entire run —
at any attempt index, final or not — with no revert and no retry. -/
theorem apply_error_fatal (env : Nat → AttemptSpec) (k i : Nat)
    (hi : 1 ≤ i) (hik : i ≤ k) (hE : env i = .applyError)
    (hprev : ∀ m, 1 ≤ m → m < i → env m = .noChanges ∨ ∃ out, env m = .changes false out) :
    (mainLoop env k).1 = .crashed :=
  mainLoopAux_crash env i hE k 1 ⟨0, 0, 0, 0, none⟩ hi (by omega) hprev

/-- C7 amended witness: an apply error on attempt 1 of 2 crashes the
run. -/
theorem apply_error_fatal_witness :
    (1 ≤ 1) ∧ ((fun _ : Nat => AttemptSpec.applyError) 1 = .applyError) ∧
    (mainLoop (fun _ => .applyError) 2).1 = .crashed :=
  ⟨by decide, rfl,
    apply_error_fatal (fun _ => .applyError) 2 1 (by decide) (by decide) rfl
      (fun m hm1 hm2 => absurd (lt_of_le_of_lt hm1 hm2) (by decide))⟩

/-- C8: an attempt whose parse produced no changes contributes exactly
one generation call and the literal no-op feedback record, then
continues with the next attempt — the apply, test-run and reset
counters (the only filesystem-touching operations) are those of the
continuation, so the attempt leaves the workspace untouched. -/
theorem noChanges_attempt_frame (env : Nat → AttemptSpec) (rem i : Nat) (st : LoopState)
    (h : env i = .noChanges) :
    mainLoopAux env (rem + 1) i st =
      mainLoopAux env rem (i + 1)
        { st with genCalls := st.genCalls + 1,
                  feedback := some "Model did not provide any file changes" } := by
  simp only [mainLoopAux, h]

/-- C8 witness: the frame equation evaluated at the initial state. -/
theorem noChanges_attempt_frame_witness :
    ((fun _ : Nat => AttemptSpec.noChanges) 1 = .noChanges) ∧
    mainLoopAux (fun _ => .noChanges) 1 1 ⟨0, 0, 0, 0, none⟩ =
      mainLoopAux (fun _ => .noChanges) 0 2
        ⟨1, 0, 0, 0, some "Model did not provide any file changes"⟩ :=
  ⟨rfl, noChanges_attempt_frame (fun _ => .noChanges) 0 1 ⟨0, 0, 0, 0, none⟩ rfl⟩

/-- C9 counterexample: a create edit for `a.txt` whose target already
exists with content `"OLD"` records `old = ""`, not the current file
content `"OLD"`. -/
theorem generate_diff_create_old_counterexample :
    List.lookup "a.txt"
        (generate_diff [⟨"a.txt", some "create", some "NEW"⟩] "/r" [("/r/a.txt", "OLD")]) =
      some ⟨"create", "", "NEW"⟩ ∧
    FS.lookup [("/r/a.txt", "OLD")] (joinPath "/r" "a.txt") = some "OLD" ∧
    ("" : String) ≠ "OLD" := by
  refine ⟨?_, ?_, ?_⟩ <;> decide

/-- C9 amended: `generate_diff` records, for a modify edit, the current
file content (empty when absent) as `old` and the edit content as `new`;
for a create edit it always records `old = ""` without consulting the
filesystem; a delete edit produces an entry — current content as `old`,
`""` as `new` — only when the file exists, and none otherwise. -/
theorem generate_diff_entries (p root ct : String) (fs : FS) :
    generate_diff [⟨p, some "modify", some ct⟩] root fs =
      [(p, ⟨"modify", (fs.lookup (joinPath root p)).getD "", ct⟩)] ∧
    generate_diff [⟨p, some "create", some ct⟩] root fs = [(p, ⟨"create", "", ct⟩)] ∧
    generate_diff [⟨p, some "delete", some ct⟩] root fs =
      (fs.lookup (joinPath root p)).elim [] (fun oldC => [(p, ⟨"delete", oldC, ""⟩)]) := by
  refine ⟨?_, ?_, ?_⟩
  · simp [generate_diff, generate_diffAux, dictInsert]
  · simp [generate_diff, generate_diffAux, dictInsert]
  · cases h : fs.lookup (joinPath root p) <;>
      simp [generate_diff, generate_diffAux, dictInsert, h]

/-- C10: an edit dict carrying only a `path` — as a structured JSON block
may produce, and which `parse_model_response` returns verbatim — is
accepted by `apply_changes`: the missing action defaults to modify, the
missing content to `""`, so the file is written with a single newline
and reported modified or created, never rejected. -/
theorem apply_defaults_missing_fields (p root : String) (fs : FS) :
    parse_model_response ⟨some (some ⟨none, some [⟨p, none, none⟩]⟩), [], [], [], none⟩ =
      ⟨none, some [⟨p, none, none⟩]⟩ ∧
    ((apply_changes [⟨p, none, none⟩] root fs).1).lookup (joinPath root p) = some "\n" ∧
    (apply_changes [⟨p, none, none⟩] root fs).2 =
      [if (fs.lookup (joinPath root p)).isSome then .modified p else .created p] := by
  refine ⟨rfl, ?_, ?_⟩
  · simp [apply_changes, FS.lookup_insert]
  · simp [apply_changes]
